import Mathlib

/-!
Verification development for the NSS election voting application
(`nss_elections_app.py`).  The SQLite-backed store is embedded shallowly:
each table is a list of rows in insertion (rowid) order, and each database
operation of the source is a Lean function on that state.  Strings are
lists of character codes; Python's `str.lower` and `str.strip` are
modelled on the ASCII range, which covers every identifier the
application handles.
-/

namespace NSS

/-- Strings are modelled as lists of character codes. -/
abbrev Str := List Nat

/-- ASCII model of Python case folding on one character:
uppercase letters 65..90 map to 97..122, all else is fixed. -/
def lowerChar (c : Nat) : Nat := if 65 ≤ c ∧ c ≤ 90 then c + 32 else c

/-- Whitespace recognised by `str.strip` (ASCII range): space and the
control characters 9..13. -/
def isSpace (c : Nat) : Bool := decide (c = 32 ∨ (9 ≤ c ∧ c ≤ 13))

/-- Python `s.lower()`. -/
def pyLower (s : Str) : Str := s.map lowerChar

/-- Python `s.strip()`: drop whitespace from both ends. -/
def pyStrip (s : Str) : Str :=
  (s.dropWhile isSpace).rdropWhile isSpace

/-- The normalisation `student_id.lower().strip()` that the source applies
at every volunteer-identifier read and write site. -/
def normId (s : Str) : Str := pyStrip (pyLower s)

/-- One row of the `volunteers` table (line 40 of the source). -/
structure Volunteer where
  student_id : Str
  name : Str
  year : Nat
  branch : Str
  phone : Str
  voted : Nat
deriving DecidableEq

/-- One row of the `candidates` table (line 51 of the source).
`id` is the AUTOINCREMENT surrogate key and `votes` the running tally. -/
structure Candidate where
  id : Nat
  name : Str
  roll_number : Str
  year : Nat
  branch : Str
  phone : Str
  position1 : Str
  position2 : Option Str
  photo_path : Option Str
  votes : Nat
deriving DecidableEq

/-- One row of the `votes` table (line 29 of the source); the table's
primary key is the (student_id, position) pair. -/
structure VoteRow where
  student_id : Str
  position : Str
  candidate_id : Nat
deriving DecidableEq

/-- The persistent store: the three tables the claims are about, each a
list of rows in insertion (rowid) order.  The `admin` table plays no role
in any claim and is omitted. -/
structure DB where
  volunteers : List Volunteer
  candidates : List Candidate
  votes : List VoteRow
deriving DecidableEq

/-- The query `SELECT 1 FROM votes WHERE student_id = ? AND position = ?`
(lines 149 and 158), as a Boolean: does a row for the pair exist?
The caller passes the already-normalised student id. -/
def hasVoteRow (votes : List VoteRow) (sid pos : Str) : Bool :=
  votes.any (fun r => decide (r.student_id = sid) && decide (r.position = pos))

/-- Number of `votes` rows for a (student_id, position) pair. -/
def rowsFor (votes : List VoteRow) (sid pos : Str) : Nat :=
  votes.countP (fun r => decide (r.student_id = sid) && decide (r.position = pos))

/-- The tally of candidate `cid`: the `votes` column of the (unique, by
PRIMARY KEY) `candidates` row with `id = cid`, if any. -/
def getTally (cands : List Candidate) (cid : Nat) : Option Nat :=
  (cands.find? (fun c => decide (c.id = cid))).map Candidate.votes

/-- `get_volunteer` (source lines 128-135): normalise the identifier, look
up the `volunteers` row, return its (student_id, name, voted) projection. -/
def get_volunteer (db : DB) (student_id : Str) : Option (Str × Str × Nat) :=
  (db.volunteers.find? (fun v => decide (v.student_id = normId student_id))).map
    (fun v => (v.student_id, v.name, v.voted))

/-- `add_volunteer` (source lines 76-87): INSERT with the normalised
identifier; the PRIMARY KEY on `student_id` raises `IntegrityError`
exactly when a row with that key already exists, in which case the
function returns `False` and nothing is written. -/
def add_volunteer (db : DB) (student_id name : Str) (year : Nat)
    (branch phone : Str) : Bool × DB :=
  if db.volunteers.any (fun v => decide (v.student_id = normId student_id)) then
    (false, db)
  else
    (true, { db with volunteers := db.volunteers ++
      [{ student_id := normId student_id, name := pyStrip name, year := year,
         branch := pyStrip branch, phone := pyStrip phone, voted := 0 }] })

/-- `delete_volunteer` (source lines 105-112): delete the `votes` rows and
the `volunteers` row whose `student_id` equals the normalised identifier;
the `candidates` table is not touched. -/
def delete_volunteer (db : DB) (student_id : Str) : DB :=
  { db with
    votes := db.votes.filter (fun r => !decide (r.student_id = normId student_id)),
    volunteers := db.volunteers.filter (fun v => !decide (v.student_id = normId student_id)) }

/-- `has_voted` (source lines 146-152). -/
def has_voted (db : DB) (student_id pos : Str) : Bool :=
  hasVoteRow db.votes (normId student_id) pos

/-- Effect on one `candidates` row of
`UPDATE candidates SET votes = votes + 1 WHERE id = ?` (source line 167). -/
def bumpCandidate (candidate_id : Nat) (c : Candidate) : Candidate :=
  if c.id = candidate_id then { c with votes := c.votes + 1 } else c

/-- `vote_for_candidate` (source lines 154-170, the later definition that
shadows the two-argument one): if a `votes` row for the normalised
(student_id, position) pair exists, return `False` with no mutation;
otherwise insert the vote row and run
`UPDATE candidates SET votes = votes + 1 WHERE id = ?`, then return
`True`.  No check on the candidate or the volunteer is performed. -/
def vote_for_candidate (db : DB) (candidate_id : Nat) (student_id pos : Str) :
    Bool × DB :=
  if hasVoteRow db.votes (normId student_id) pos then
    (false, db)
  else
    (true, { db with
      votes := db.votes ++ [⟨normId student_id, pos, candidate_id⟩],
      candidates := db.candidates.map (bumpCandidate candidate_id) })

/-- One row of the results projection
`SELECT name, position1, position2, votes FROM candidates`. -/
structure ResultRow where
  name : Str
  position1 : Str
  position2 : Option Str
  votes : Nat
deriving DecidableEq

/-- The comparison realised by `ORDER BY votes DESC`. -/
def resultsLE (a b : ResultRow) : Bool := decide (b.votes ≤ a.votes)

/-- Projection of a `candidates` row to a results row. -/
def toResultRow (c : Candidate) : ResultRow :=
  ⟨c.name, c.position1, c.position2, c.votes⟩

/-- `get_results_df` (source lines 203-207):
`SELECT name, position1, position2, votes FROM candidates ORDER BY votes DESC`.
SQLite scans the table in rowid (insertion) order and its sorter is a
stable merge sort, so the query is modelled as a stable merge sort of the
projected rows by descending vote count. -/
def get_results_df (db : DB) : List ResultRow :=
  (db.candidates.map toResultRow).mergeSort resultsLE

/-- One `vote_for_candidate` call: the arguments of source line 154. -/
structure Call where
  candidate_id : Nat
  student_id : Str
  position : Str
deriving DecidableEq

/-- Run a sequence of `vote_for_candidate` calls; return the log of
(call, result) pairs and the final store. -/
def runVotes (db : DB) (cs : List Call) : List (Call × Bool) × DB :=
  match cs with
  | [] => ([], db)
  | c :: rest =>
    let step := vote_for_candidate db c.candidate_id c.student_id c.position
    let out := runVotes step.2 rest
    ((c, step.1) :: out.1, out.2)

/-- Number of `Accepted` (`True`) results in a log among the calls whose
normalised (volunteer, position) key is the given pair. -/
def acceptedCount (log : List (Call × Bool)) (sid pos : Str) : Nat :=
  log.countP (fun e =>
    e.2 && decide (normId e.1.student_id = sid) && decide (e.1.position = pos))

/-! ### Normalisation lemmas -/

theorem lowerChar_lowerChar (c : Nat) : lowerChar (lowerChar c) = lowerChar c := by
  unfold lowerChar
  split <;> (try split) <;> omega

theorem isSpace_lowerChar (c : Nat) : isSpace (lowerChar c) = isSpace c := by
  unfold lowerChar isSpace
  split
  · rw [decide_eq_decide]
    constructor <;> intro <;> omega
  · rfl

theorem pyLower_pyLower (s : Str) : pyLower (pyLower s) = pyLower s := by
  induction s with
  | nil => rfl
  | cons a t ih =>
    simp only [pyLower, List.map_cons, List.map_map] at ih ⊢
    rw [lowerChar_lowerChar]
    exact congrArg _ ih

theorem dropWhile_pyStrip (s : Str) :
    (pyStrip s).dropWhile isSpace = pyStrip s := by
  rw [List.dropWhile_eq_self_iff]
  intro hl
  have hpre : pyStrip s <+: s.dropWhile isSpace := List.rdropWhile_prefix _ _
  have h0 : 0 < (s.dropWhile isSpace).length :=
    Nat.lt_of_lt_of_le hl hpre.length_le
  have hg := List.dropWhile_get_zero_not isSpace s h0
  have he : (pyStrip s).get ⟨0, hl⟩ = (s.dropWhile isSpace).get ⟨0, h0⟩ := by
    simp only [List.get_eq_getElem]
    exact hpre.getElem hl
  rw [he]
  exact hg

theorem pyStrip_pyStrip (s : Str) : pyStrip (pyStrip s) = pyStrip s := by
  show ((pyStrip s).dropWhile isSpace).rdropWhile isSpace = pyStrip s
  rw [dropWhile_pyStrip]
  exact List.rdropWhile_idempotent _ _

theorem pyLower_pyStrip (s : Str) : pyLower (pyStrip s) = pyStrip (pyLower s) := by
  have hcomp : (isSpace ∘ lowerChar) = isSpace := funext isSpace_lowerChar
  show List.map lowerChar ((s.dropWhile isSpace).rdropWhile isSpace)
      = ((List.map lowerChar s).dropWhile isSpace).rdropWhile isSpace
  rw [List.dropWhile_map, hcomp, List.rdropWhile, List.rdropWhile,
    ← List.map_reverse, List.dropWhile_map, hcomp, List.map_reverse]

theorem normId_normId (s : Str) : normId (normId s) = normId s := by
  show pyStrip (pyLower (pyStrip (pyLower s))) = pyStrip (pyLower s)
  rw [pyLower_pyStrip, pyLower_pyLower, pyStrip_pyStrip]

/-! ### Step lemmas for `vote_for_candidate` -/

theorem hasVoteRow_false_iff (votes : List VoteRow) (sid pos : Str) :
    hasVoteRow votes sid pos = false ↔ rowsFor votes sid pos = 0 := by
  simp [hasVoteRow, rowsFor, List.any_eq_false, List.countP_eq_zero]

theorem rowsFor_append (a b : List VoteRow) (sid pos : Str) :
    rowsFor (a ++ b) sid pos = rowsFor a sid pos + rowsFor b sid pos :=
  List.countP_append _ _ _

theorem rowsFor_single (r : VoteRow) (sid pos : Str) :
    rowsFor [r] sid pos
      = if r.student_id = sid ∧ r.position = pos then 1 else 0 := by
  simp only [rowsFor, List.countP_cons, List.countP_nil, Nat.zero_add]
  by_cases h1 : r.student_id = sid <;> by_cases h2 : r.position = pos <;>
    simp [h1, h2]

theorem vote_of_voted (db : DB) (cid : Nat) (s p : Str)
    (h : hasVoteRow db.votes (normId s) p = true) :
    vote_for_candidate db cid s p = (false, db) := by
  simp [vote_for_candidate, h]

theorem vote_of_fresh (db : DB) (cid : Nat) (s p : Str)
    (h : hasVoteRow db.votes (normId s) p = false) :
    vote_for_candidate db cid s p =
      (true, { db with
        votes := db.votes ++ [⟨normId s, p, cid⟩],
        candidates := db.candidates.map (bumpCandidate cid) }) := by
  simp [vote_for_candidate, h]

theorem vote_result_eq (db : DB) (cid : Nat) (s p : Str) :
    (vote_for_candidate db cid s p).1 = !hasVoteRow db.votes (normId s) p := by
  by_cases h : hasVoteRow db.votes (normId s) p <;>
    simp [vote_for_candidate, h]

theorem hasVoteRow_vote_mono (db : DB) (cid : Nat) (s p : Str) (sid pos : Str)
    (h : hasVoteRow db.votes sid pos = true) :
    hasVoteRow (vote_for_candidate db cid s p).2.votes sid pos = true := by
  by_cases hv : hasVoteRow db.votes (normId s) p
  · rw [vote_of_voted db cid s p hv]
    exact h
  · rw [vote_of_fresh db cid s p (by simpa using hv)]
    simp only [hasVoteRow, List.any_append, Bool.or_eq_true]
    exact Or.inl h

/-! ### Tally lemmas -/

theorem id_bumpCandidate (cid : Nat) (c : Candidate) :
    (bumpCandidate cid c).id = c.id := by
  unfold bumpCandidate
  split <;> rfl

theorem getTally_bump_self (l : List Candidate) (cid : Nat) :
    getTally (l.map (bumpCandidate cid)) cid = (getTally l cid).map (· + 1) := by
  induction l with
  | nil => rfl
  | cons a t ih =>
    by_cases h : a.id = cid
    · simp [getTally, List.find?_cons, bumpCandidate, h]
    · have hd : (decide (a.id = cid)) = false := by simp [h]
      simp only [getTally] at ih
      simp only [getTally, List.map_cons, List.find?_cons, id_bumpCandidate, hd]
      exact ih

theorem getTally_bump_other (l : List Candidate) (cid c : Nat) (hc : c ≠ cid) :
    getTally (l.map (bumpCandidate cid)) c = getTally l c := by
  induction l with
  | nil => rfl
  | cons a t ih =>
    by_cases h : a.id = c
    · have hac : ¬ a.id = cid := by rw [h]; exact hc
      simp [getTally, List.find?_cons, bumpCandidate, h, hac, hc]
    · have hd : (decide (a.id = c)) = false := by simp [h]
      simp only [getTally] at ih
      simp only [getTally, List.map_cons, List.find?_cons, id_bumpCandidate, hd]
      exact ih

/-! ### Component forms of the step lemmas -/

theorem vote_of_voted_fst (db : DB) (cid : Nat) (s p : Str)
    (h : hasVoteRow db.votes (normId s) p = true) :
    (vote_for_candidate db cid s p).1 = false := by
  rw [vote_of_voted db cid s p h]

theorem vote_of_voted_snd (db : DB) (cid : Nat) (s p : Str)
    (h : hasVoteRow db.votes (normId s) p = true) :
    (vote_for_candidate db cid s p).2 = db := by
  rw [vote_of_voted db cid s p h]

theorem vote_of_fresh_fst (db : DB) (cid : Nat) (s p : Str)
    (h : hasVoteRow db.votes (normId s) p = false) :
    (vote_for_candidate db cid s p).1 = true := by
  rw [vote_of_fresh db cid s p h]

theorem vote_of_fresh_snd (db : DB) (cid : Nat) (s p : Str)
    (h : hasVoteRow db.votes (normId s) p = false) :
    (vote_for_candidate db cid s p).2 =
      { db with
        votes := db.votes ++ [⟨normId s, p, cid⟩],
        candidates := db.candidates.map (bumpCandidate cid) } := by
  rw [vote_of_fresh db cid s p h]

/-! ### Unfolding lemmas for `runVotes` -/

theorem runVotes_cons_fst (db : DB) (c : Call) (rest : List Call) :
    (runVotes db (c :: rest)).1 =
      (c, (vote_for_candidate db c.candidate_id c.student_id c.position).1) ::
        (runVotes (vote_for_candidate db c.candidate_id c.student_id c.position).2 rest).1 :=
  rfl

theorem runVotes_cons_snd (db : DB) (c : Call) (rest : List Call) :
    (runVotes db (c :: rest)).2 =
      (runVotes (vote_for_candidate db c.candidate_id c.student_id c.position).2 rest).2 :=
  rfl

theorem acceptedCount_cons (c : Call) (b : Bool) (log : List (Call × Bool))
    (sid pos : Str) :
    acceptedCount ((c, b) :: log) sid pos
      = acceptedCount log sid pos +
        (if b && decide (normId c.student_id = sid) && decide (c.position = pos)
         then 1 else 0) := by
  simp [acceptedCount, List.countP_cons]

/-! ### Runs starting from an already-voted state -/

theorem runVotes_voted (sid pos : Str) (cs : List Call) :
    ∀ db : DB, hasVoteRow db.votes sid pos = true →
      acceptedCount (runVotes db cs).1 sid pos = 0 ∧
      rowsFor (runVotes db cs).2.votes sid pos = rowsFor db.votes sid pos := by
  induction cs with
  | nil => exact fun db _ => ⟨rfl, rfl⟩
  | cons c rest ih =>
    intro db h
    have hmono : hasVoteRow
        (vote_for_candidate db c.candidate_id c.student_id c.position).2.votes
        sid pos = true :=
      hasVoteRow_vote_mono db c.candidate_id c.student_id c.position sid pos h
    have hrest := ih _ hmono
    refine ⟨?_, ?_⟩
    · rw [runVotes_cons_fst, acceptedCount_cons, hrest.1, Nat.zero_add]
      by_cases hk : normId c.student_id = sid ∧ c.position = pos
      · have hv : hasVoteRow db.votes (normId c.student_id) c.position = true := by
          rw [hk.1, hk.2]; exact h
        rw [vote_of_voted_fst db c.candidate_id c.student_id c.position hv]
        simp
      · rcases not_and_or.mp hk with h1 | h1 <;> simp [h1]
    · rw [runVotes_cons_snd, hrest.2]
      cases hv : hasVoteRow db.votes (normId c.student_id) c.position with
      | true => rw [vote_of_voted_snd db c.candidate_id c.student_id c.position hv]
      | false =>
        rw [vote_of_fresh_snd db c.candidate_id c.student_id c.position hv]
        show rowsFor (db.votes ++ [⟨normId c.student_id, c.position, c.candidate_id⟩])
            sid pos = rowsFor db.votes sid pos
        rw [rowsFor_append, rowsFor_single]
        by_cases hk : normId c.student_id = sid ∧ c.position = pos
        · exfalso
          rw [hk.1, hk.2] at hv
          rw [h] at hv
          exact Bool.noConfusion hv
        · rw [if_neg hk, Nat.add_zero]

/-! ### Runs starting from a state with no row for the pair -/

theorem runVotes_fresh (sid pos : Str) (cs : List Call) :
    ∀ db : DB, rowsFor db.votes sid pos = 0 →
      acceptedCount (runVotes db cs).1 sid pos ≤ 1 ∧
      rowsFor (runVotes db cs).2.votes sid pos ≤ 1 := by
  induction cs with
  | nil =>
    intro db h
    exact ⟨Nat.zero_le 1, by show rowsFor db.votes sid pos ≤ 1; rw [h]; exact Nat.zero_le 1⟩
  | cons c rest ih =>
    intro db h
    cases hv : hasVoteRow db.votes (normId c.student_id) c.position with
    | true =>
      have h1 := vote_of_voted_fst db c.candidate_id c.student_id c.position hv
      have h2 := vote_of_voted_snd db c.candidate_id c.student_id c.position hv
      have hrest := ih db h
      refine ⟨?_, ?_⟩
      · rw [runVotes_cons_fst, acceptedCount_cons, h1, h2]
        simpa using hrest.1
      · rw [runVotes_cons_snd, h2]
        exact hrest.2
    | false =>
      have h1 := vote_of_fresh_fst db c.candidate_id c.student_id c.position hv
      have h2 := vote_of_fresh_snd db c.candidate_id c.student_id c.position hv
      by_cases hk : normId c.student_id = sid ∧ c.position = pos
      · have hafter : hasVoteRow
            (vote_for_candidate db c.candidate_id c.student_id c.position).2.votes
            sid pos = true := by
          rw [h2]
          show hasVoteRow
            (db.votes ++ [⟨normId c.student_id, c.position, c.candidate_id⟩])
            sid pos = true
          simp [hasVoteRow, List.any_append, hk.1, hk.2]
        have hrest := runVotes_voted sid pos rest _ hafter
        refine ⟨?_, ?_⟩
        · rw [runVotes_cons_fst, acceptedCount_cons, hrest.1, h1, Nat.zero_add]
          simp [hk.1, hk.2]
        · rw [runVotes_cons_snd, hrest.2, h2]
          show rowsFor
            (db.votes ++ [⟨normId c.student_id, c.position, c.candidate_id⟩])
            sid pos ≤ 1
          rw [rowsFor_append, h, rowsFor_single, Nat.zero_add]
          split <;> omega
      · have hafter : rowsFor
            (vote_for_candidate db c.candidate_id c.student_id c.position).2.votes
            sid pos = 0 := by
          rw [h2]
          show rowsFor
            (db.votes ++ [⟨normId c.student_id, c.position, c.candidate_id⟩])
            sid pos = 0
          rw [rowsFor_append, h, rowsFor_single, Nat.zero_add, if_neg hk]
        have hrest := ih _ hafter
        refine ⟨?_, ?_⟩
        · rw [runVotes_cons_fst, acceptedCount_cons]
          have hz : (if (vote_for_candidate db c.candidate_id c.student_id
                c.position).1
              && decide (normId c.student_id = sid)
              && decide (c.position = pos) then 1 else 0) = 0 := by
            rcases not_and_or.mp hk with h1 | h1 <;> simp [h1]
          rw [hz, Nat.add_zero]
          exact hrest.1
        · rw [runVotes_cons_snd]
          exact hrest.2

/-! ### Runs of uniformly accepted votes for one candidate -/

theorem runVotes_tally (cid : Nat) (cs : List Call) :
    ∀ db : DB,
      (∀ e ∈ (runVotes db cs).1, e.1.candidate_id = cid ∧ e.2 = true) →
      getTally (runVotes db cs).2.candidates cid
        = (getTally db.candidates cid).map (· + cs.length) ∧
      (∀ c, c ≠ cid →
        getTally (runVotes db cs).2.candidates c = getTally db.candidates c) := by
  induction cs with
  | nil =>
    intro db _
    refine ⟨?_, fun c _ => rfl⟩
    show getTally db.candidates cid
      = (getTally db.candidates cid).map (· + List.length [])
    cases getTally db.candidates cid <;> simp
  | cons c rest ih =>
    intro db hall
    have hhead : c.candidate_id = cid ∧
        (vote_for_candidate db c.candidate_id c.student_id c.position).1 = true := by
      refine hall (c, (vote_for_candidate db c.candidate_id c.student_id c.position).1) ?_
      rw [runVotes_cons_fst]
      exact List.mem_cons_self _ _
    have hv : hasVoteRow db.votes (normId c.student_id) c.position = false := by
      cases hh : hasVoteRow db.votes (normId c.student_id) c.position with
      | true =>
        have := vote_of_voted_fst db c.candidate_id c.student_id c.position hh
        rw [hhead.2] at this
        exact Bool.noConfusion this
      | false => rfl
    have h2 := vote_of_fresh_snd db c.candidate_id c.student_id c.position hv
    have htail : ∀ e ∈ (runVotes
        (vote_for_candidate db c.candidate_id c.student_id c.position).2 rest).1,
        e.1.candidate_id = cid ∧ e.2 = true := by
      intro e he
      refine hall e ?_
      rw [runVotes_cons_fst]
      exact List.mem_cons_of_mem _ he
    have hrest := ih _ htail
    refine ⟨?_, ?_⟩
    · rw [runVotes_cons_snd, hrest.1, h2]
      show (getTally (db.candidates.map (bumpCandidate c.candidate_id)) cid).map
          (· + rest.length)
        = (getTally db.candidates cid).map (· + (c :: rest).length)
      rw [hhead.1, getTally_bump_self]
      cases getTally db.candidates cid with
      | none => rfl
      | some t =>
        simp only [Option.map_some', List.length_cons, Option.some.injEq]
        omega
    · intro cc hcc
      rw [runVotes_cons_snd, hrest.2 cc hcc, h2]
      show getTally (db.candidates.map (bumpCandidate c.candidate_id)) cc
        = getTally db.candidates cc
      rw [hhead.1]
      exact getTally_bump_other db.candidates cid cc hcc

/-! ### Sample rows used to instantiate the claim theorems -/

/-- A sample candidate row with id 1 and an empty tally. -/
def candA : Candidate := ⟨1, [120], [114], 1, [98], [57], [112], none, none, 0⟩

/-- A second sample candidate row with id 2 and an empty tally. -/
def candB : Candidate := ⟨2, [121], [114], 1, [98], [57], [112], none, none, 0⟩

/-- A store holding the two sample candidates and nothing else. -/
def dbPair : DB := ⟨[], [candA, candB], []⟩

/-! ### The claims -/

/-- C1: for every sequence of `vote_for_candidate` calls, each
(volunteer identifier, position) pair yields at most one Accepted (`True`)
result, the `votes` table never holds more than one row for the pair, and
from any state that already holds a row for the pair every call for it
returns AlreadyVoted (`False`), so no further acceptance follows the
first. -/
theorem claim1_one_vote_per_pair (db : DB) (cs : List Call) (sid pos : Str)
    (h : rowsFor db.votes sid pos = 0) :
    acceptedCount (runVotes db cs).1 sid pos ≤ 1 ∧
    rowsFor (runVotes db cs).2.votes sid pos ≤ 1 ∧
    (∀ db2 : DB, hasVoteRow db2.votes sid pos = true →
      acceptedCount (runVotes db2 cs).1 sid pos = 0) :=
  ⟨(runVotes_fresh sid pos cs db h).1, (runVotes_fresh sid pos cs db h).2,
   fun db2 h2 => (runVotes_voted sid pos cs db2 h2).1⟩

/-- Witness for C1 at a concrete store and a concrete two-call sequence
that targets the same (volunteer, position) pair twice. -/
theorem claim1_witness :
    rowsFor (DB.mk [] [] []).votes [97] [112] = 0 ∧
    acceptedCount
      (runVotes (DB.mk [] [] []) [⟨1, [97], [112]⟩, ⟨2, [97], [112]⟩]).1
      [97] [112] ≤ 1 ∧
    rowsFor
      (runVotes (DB.mk [] [] []) [⟨1, [97], [112]⟩, ⟨2, [97], [112]⟩]).2.votes
      [97] [112] ≤ 1 ∧
    hasVoteRow (DB.mk [] [] [⟨[97], [112], 1⟩]).votes [97] [112] = true ∧
    acceptedCount
      (runVotes (DB.mk [] [] [⟨[97], [112], 1⟩])
        [⟨1, [97], [112]⟩, ⟨2, [97], [112]⟩]).1 [97] [112] = 0 :=
  ⟨by decide,
   (claim1_one_vote_per_pair (DB.mk [] [] [])
     [⟨1, [97], [112]⟩, ⟨2, [97], [112]⟩] [97] [112] (by decide)).1,
   (claim1_one_vote_per_pair (DB.mk [] [] [])
     [⟨1, [97], [112]⟩, ⟨2, [97], [112]⟩] [97] [112] (by decide)).2.1,
   by decide,
   (claim1_one_vote_per_pair (DB.mk [] [] [])
     [⟨1, [97], [112]⟩, ⟨2, [97], [112]⟩] [97] [112] (by decide)).2.2
     (DB.mk [] [] [⟨[97], [112], 1⟩]) (by decide)⟩

/-- C2: when `vote_for_candidate` returns Accepted (`True`), exactly one
new `votes` row exists for the (volunteer, position) pair, the named
candidate's tally increased by exactly one, every other candidate's tally
is unchanged, and over any run of N uniformly Accepted calls for one
candidate that candidate's tally equals its prior value plus N. -/
theorem claim2_accepted_postcondition (db : DB) (cid : Nat) (s p : Str)
    (h : (vote_for_candidate db cid s p).1 = true) :
    (vote_for_candidate db cid s p).2.votes = db.votes ++ [⟨normId s, p, cid⟩] ∧
    rowsFor (vote_for_candidate db cid s p).2.votes (normId s) p = 1 ∧
    getTally (vote_for_candidate db cid s p).2.candidates cid
      = (getTally db.candidates cid).map (· + 1) ∧
    (∀ c, c ≠ cid → getTally (vote_for_candidate db cid s p).2.candidates c
      = getTally db.candidates c) ∧
    (∀ (db2 : DB) (cs : List Call),
      (∀ e ∈ (runVotes db2 cs).1, e.1.candidate_id = cid ∧ e.2 = true) →
      getTally (runVotes db2 cs).2.candidates cid
        = (getTally db2.candidates cid).map (· + cs.length)) := by
  have hv : hasVoteRow db.votes (normId s) p = false := by
    cases hh : hasVoteRow db.votes (normId s) p with
    | true =>
      rw [vote_of_voted_fst db cid s p hh] at h
      exact Bool.noConfusion h
    | false => rfl
  have h2 := vote_of_fresh_snd db cid s p hv
  refine ⟨?_, ?_, ?_, ?_, ?_⟩
  · rw [h2]
  · rw [h2]
    show rowsFor (db.votes ++ [⟨normId s, p, cid⟩]) (normId s) p = 1
    rw [rowsFor_append, (hasVoteRow_false_iff _ _ _).mp hv, rowsFor_single,
      Nat.zero_add]
    simp
  · rw [h2]
    show getTally (db.candidates.map (bumpCandidate cid)) cid
      = (getTally db.candidates cid).map (· + 1)
    exact getTally_bump_self db.candidates cid
  · intro c hc
    rw [h2]
    show getTally (db.candidates.map (bumpCandidate cid)) c
      = getTally db.candidates c
    exact getTally_bump_other db.candidates cid c hc
  · intro db2 cs hall
    exact (runVotes_tally cid cs db2 hall).1

/-- Witness for C2: an accepted vote for candidate 1 in a store with two
candidates, with the sequence part instantiated at a one-call run. -/
theorem claim2_witness :
    (vote_for_candidate dbPair 1 [97] [112]).1 = true ∧
    (vote_for_candidate dbPair 1 [97] [112]).2.votes
      = dbPair.votes ++ [⟨normId [97], [112], 1⟩] ∧
    rowsFor (vote_for_candidate dbPair 1 [97] [112]).2.votes
      (normId [97]) [112] = 1 ∧
    getTally (vote_for_candidate dbPair 1 [97] [112]).2.candidates 1
      = (getTally dbPair.candidates 1).map (· + 1) ∧
    getTally (vote_for_candidate dbPair 1 [97] [112]).2.candidates 2
      = getTally dbPair.candidates 2 ∧
    getTally (runVotes dbPair [⟨1, [97], [112]⟩]).2.candidates 1
      = (getTally dbPair.candidates 1).map
          (· + List.length [(⟨1, [97], [112]⟩ : Call)]) :=
  ⟨by decide,
   (claim2_accepted_postcondition dbPair 1 [97] [112] (by decide)).1,
   (claim2_accepted_postcondition dbPair 1 [97] [112] (by decide)).2.1,
   (claim2_accepted_postcondition dbPair 1 [97] [112] (by decide)).2.2.1,
   (claim2_accepted_postcondition dbPair 1 [97] [112] (by decide)).2.2.2.1 2
     (by decide),
   (claim2_accepted_postcondition dbPair 1 [97] [112] (by decide)).2.2.2.2
     dbPair [⟨1, [97], [112]⟩] (by decide)⟩

/-- C3 as stated is false: `vote_for_candidate` has no InvalidCandidate
outcome.  At a store with no candidate 7 at all, a vote naming candidate 7
is Accepted (`True`) and a `votes` row referencing the nonexistent
candidate is inserted, rather than the call being rejected. -/
theorem claim3_counterexample :
    getTally (DB.mk [] [] []).candidates 7 = none ∧
    (vote_for_candidate (DB.mk [] [] []) 7 [97] [115]).1 = true ∧
    (vote_for_candidate (DB.mk [] [] []) 7 [97] [115]).2.votes
      = [⟨[97], [115], 7⟩] := by
  decide

/-- C3 (amended): `vote_for_candidate` returns only Accepted (`True`) or
AlreadyVoted (`False`); it performs no candidate existence or eligibility
check, its result being `True` exactly when no `votes` row exists for the
normalised (volunteer, position) pair and independent of the contents of
the `candidates` table. -/
theorem claim3_no_candidate_check (db : DB) (cid : Nat) (s p : Str) :
    (vote_for_candidate db cid s p).1 = !hasVoteRow db.votes (normId s) p ∧
    (∀ cands2 : List Candidate,
      (vote_for_candidate { db with candidates := cands2 } cid s p).1
        = (vote_for_candidate db cid s p).1) := by
  refine ⟨vote_result_eq db cid s p, ?_⟩
  intro cands2
  rw [vote_result_eq, vote_result_eq]

/-- Witness for C3 (amended) at a concrete fresh store. -/
theorem claim3_witness :
    (vote_for_candidate dbPair 1 [97] [112]).1
      = !hasVoteRow dbPair.votes (normId [97]) [112] ∧
    (vote_for_candidate { dbPair with candidates := [] } 1 [97] [112]).1
      = (vote_for_candidate dbPair 1 [97] [112]).1 :=
  ⟨(claim3_no_candidate_check dbPair 1 [97] [112]).1,
   (claim3_no_candidate_check dbPair 1 [97] [112]).2 []⟩

/-- C4: when a `votes` row already exists for the (volunteer, position)
pair, `vote_for_candidate` returns AlreadyVoted (`False`) and the store is
completely unchanged — no table is modified. -/
theorem claim4_already_voted_no_mutation (db : DB) (cid : Nat) (s p : Str)
    (h : hasVoteRow db.votes (normId s) p = true) :
    vote_for_candidate db cid s p = (false, db) :=
  vote_of_voted db cid s p h

/-- Witness for C4 at a store that already holds the vote row. -/
theorem claim4_witness :
    hasVoteRow (DB.mk [] [] [⟨[97], [112], 3⟩]).votes (normId [97]) [112]
      = true ∧
    vote_for_candidate (DB.mk [] [] [⟨[97], [112], 3⟩]) 5 [97] [112]
      = (false, DB.mk [] [] [⟨[97], [112], 3⟩]) :=
  ⟨by decide,
   claim4_already_voted_no_mutation (DB.mk [] [] [⟨[97], [112], 3⟩]) 5
     [97] [112] (by decide)⟩

/-- C5: votes for different positions by the same volunteer are
independent — after an Accepted vote for position `p1`, a vote by the same
volunteer for a distinct position `p2` with no prior row for
(volunteer, `p2`) is Accepted. -/
theorem claim5_positions_independent (db : DB) (cid1 cid2 : Nat)
    (s p1 p2 : Str)
    (h1 : (vote_for_candidate db cid1 s p1).1 = true)
    (hp : p2 ≠ p1)
    (h2 : hasVoteRow db.votes (normId s) p2 = false) :
    (vote_for_candidate (vote_for_candidate db cid1 s p1).2 cid2 s p2).1
      = true := by
  have hv1 : hasVoteRow db.votes (normId s) p1 = false := by
    cases hh : hasVoteRow db.votes (normId s) p1 with
    | true =>
      rw [vote_of_voted_fst db cid1 s p1 hh] at h1
      exact Bool.noConfusion h1
    | false => rfl
  apply vote_of_fresh_fst
  rw [vote_of_fresh_snd db cid1 s p1 hv1]
  show hasVoteRow (db.votes ++ [⟨normId s, p1, cid1⟩]) (normId s) p2 = false
  simp only [hasVoteRow, List.any_append, Bool.or_eq_false_iff]
  constructor
  · exact h2
  · simp [Ne.symm hp]

/-- Witness for C5: accept a vote for one position, then for another. -/
theorem claim5_witness :
    (vote_for_candidate dbPair 1 [97] [112]).1 = true ∧
    ([113] : Str) ≠ [112] ∧
    hasVoteRow dbPair.votes (normId [97]) [113] = false ∧
    (vote_for_candidate (vote_for_candidate dbPair 1 [97] [112]).2 2
      [97] [113]).1 = true :=
  ⟨by decide, by decide, by decide,
   claim5_positions_independent dbPair 1 2 [97] [112] [113] (by decide)
     (by decide) (by decide)⟩

/-- C6: `add_volunteer` with a student identifier whose normalisation is
already present in the roster returns DuplicateIdentifier (`False`) and
leaves the whole store, the existing row included, unaltered. -/
theorem claim6_duplicate_identifier (db : DB) (s nm : Str) (yr : Nat)
    (br ph : Str)
    (h : db.volunteers.any (fun v => decide (v.student_id = normId s)) = true) :
    add_volunteer db s nm yr br ph = (false, db) := by
  simp [add_volunteer, h]

/-- Witness for C6: adding " A" to a roster already holding "a". -/
theorem claim6_witness :
    (DB.mk [⟨[97], [110], 1, [98], [57], 0⟩] [] []).volunteers.any
      (fun v => decide (v.student_id = normId [32, 65])) = true ∧
    add_volunteer (DB.mk [⟨[97], [110], 1, [98], [57], 0⟩] [] [])
      [32, 65] [109] 2 [99] [56]
      = (false, DB.mk [⟨[97], [110], 1, [98], [57], 0⟩] [] []) :=
  ⟨by decide,
   claim6_duplicate_identifier (DB.mk [⟨[97], [110], 1, [98], [57], 0⟩] [] [])
     [32, 65] [109] 2 [99] [56] (by decide)⟩

/-- C7: `delete_volunteer` removes exactly the `votes` rows and the roster
row whose identifier equals the normalisation of the argument, keeps every
other row, and leaves the `candidates` table — hence every tally —
unchanged. -/
theorem claim7_delete_volunteer (db : DB) (s : Str) :
    (delete_volunteer db s).candidates = db.candidates ∧
    (∀ r : VoteRow, r ∈ (delete_volunteer db s).votes ↔
      r ∈ db.votes ∧ r.student_id ≠ normId s) ∧
    (∀ v : Volunteer, v ∈ (delete_volunteer db s).volunteers ↔
      v ∈ db.volunteers ∧ v.student_id ≠ normId s) := by
  refine ⟨rfl, ?_, ?_⟩
  · intro r
    show r ∈ db.votes.filter (fun r => !decide (r.student_id = normId s)) ↔ _
    simp [List.mem_filter]
  · intro v
    show v ∈ db.volunteers.filter (fun v => !decide (v.student_id = normId s)) ↔ _
    simp [List.mem_filter]

/-- Witness for C7 at a concrete store: one volunteer, two vote rows, two
candidates; the remaining vote row and the candidate table survive. -/
theorem claim7_witness :
    (delete_volunteer (DB.mk [⟨[97], [110], 1, [98], [57], 0⟩] [candA]
        [⟨[97], [112], 1⟩, ⟨[98], [112], 2⟩]) [65]).candidates
      = (DB.mk [⟨[97], [110], 1, [98], [57], 0⟩] [candA]
        [⟨[97], [112], 1⟩, ⟨[98], [112], 2⟩]).candidates ∧
    ((⟨[98], [112], 2⟩ : VoteRow) ∈ (delete_volunteer
        (DB.mk [⟨[97], [110], 1, [98], [57], 0⟩] [candA]
          [⟨[97], [112], 1⟩, ⟨[98], [112], 2⟩]) [65]).votes ↔
      (⟨[98], [112], 2⟩ : VoteRow) ∈ (DB.mk [⟨[97], [110], 1, [98], [57], 0⟩]
        [candA] [⟨[97], [112], 1⟩, ⟨[98], [112], 2⟩]).votes ∧
      (VoteRow.mk [98] [112] 2).student_id ≠ normId [65]) ∧
    ((⟨[97], [110], 1, [98], [57], 0⟩ : Volunteer) ∈ (delete_volunteer
        (DB.mk [⟨[97], [110], 1, [98], [57], 0⟩] [candA]
          [⟨[97], [112], 1⟩, ⟨[98], [112], 2⟩]) [65]).volunteers ↔
      (⟨[97], [110], 1, [98], [57], 0⟩ : Volunteer) ∈
        (DB.mk [⟨[97], [110], 1, [98], [57], 0⟩] [candA]
          [⟨[97], [112], 1⟩, ⟨[98], [112], 2⟩]).volunteers ∧
      (Volunteer.mk [97] [110] 1 [98] [57] 0).student_id ≠ normId [65]) :=
  ⟨(claim7_delete_volunteer (DB.mk [⟨[97], [110], 1, [98], [57], 0⟩] [candA]
      [⟨[97], [112], 1⟩, ⟨[98], [112], 2⟩]) [65]).1,
   (claim7_delete_volunteer (DB.mk [⟨[97], [110], 1, [98], [57], 0⟩] [candA]
      [⟨[97], [112], 1⟩, ⟨[98], [112], 2⟩]) [65]).2.1 ⟨[98], [112], 2⟩,
   (claim7_delete_volunteer (DB.mk [⟨[97], [110], 1, [98], [57], 0⟩] [candA]
      [⟨[97], [112], 1⟩, ⟨[98], [112], 2⟩]) [65]).2.2
     ⟨[97], [110], 1, [98], [57], 0⟩⟩

/-- C8: volunteer identifiers are normalised at every read and write
site — `get_volunteer` on any string equals `get_volunteer` on its
lowercased trimmed form, and after a successful `add_volunteer` with
identifier `s`, `get_volunteer` succeeds on every string that normalises
like `s` (every case or whitespace variant). -/
theorem claim8_normalisation :
    (∀ (db : DB) (s : Str), get_volunteer db s = get_volunteer db (normId s)) ∧
    (∀ (db : DB) (s nm : Str) (yr : Nat) (br ph s2 : Str),
      (add_volunteer db s nm yr br ph).1 = true →
      normId s2 = normId s →
      (get_volunteer (add_volunteer db s nm yr br ph).2 s2).isSome = true) := by
  constructor
  · intro db s
    unfold get_volunteer
    rw [normId_normId]
  · intro db s nm yr br ph s2 hadd hnorm
    have hany : db.volunteers.any
        (fun v => decide (v.student_id = normId s)) = false := by
      cases hh : db.volunteers.any (fun v => decide (v.student_id = normId s)) with
      | true =>
        have hf : (add_volunteer db s nm yr br ph).1 = false := by
          simp [add_volunteer, hh]
        rw [hadd] at hf
        exact Bool.noConfusion hf
      | false => rfl
    have hsnd : (add_volunteer db s nm yr br ph).2 =
        { db with volunteers := db.volunteers ++
          [⟨normId s, pyStrip nm, yr, pyStrip br, pyStrip ph, 0⟩] } := by
      simp [add_volunteer, hany]
    rw [hsnd]
    simp only [get_volunteer, Option.isSome_map', List.find?_isSome]
    exact ⟨⟨normId s, pyStrip nm, yr, pyStrip br, pyStrip ph, 0⟩,
      by simp, by simp [hnorm]⟩

/-- Witness for C8: resolve "A" against its normal form, and add "A " then
resolve " a". -/
theorem claim8_witness :
    get_volunteer dbPair [65] = get_volunteer dbPair (normId [65]) ∧
    (get_volunteer
      (add_volunteer (DB.mk [] [] []) [65, 32] [110] 1 [98] [57]).2
      [32, 97]).isSome = true :=
  ⟨claim8_normalisation.1 dbPair [65],
   claim8_normalisation.2 (DB.mk [] [] []) [65, 32] [110] 1 [98] [57] [32, 97]
     (by decide) (by decide)⟩

/-- C9: `get_results_df` returns the candidate rows sorted by vote count
in descending order, as a permutation of the projected table, and the sort
is stable — two rows with equal vote counts keep their insertion order. -/
theorem claim9_results_sorted_stable (db : DB) :
    List.Pairwise (fun a b : ResultRow => b.votes ≤ a.votes)
      (get_results_df db) ∧
    (get_results_df db).Perm (db.candidates.map toResultRow) ∧
    (∀ a b : ResultRow, List.Sublist [a, b] (db.candidates.map toResultRow) →
      a.votes = b.votes → List.Sublist [a, b] (get_results_df db)) := by
  have htrans : ∀ a b c : ResultRow, resultsLE a b → resultsLE b c →
      resultsLE a c := by
    intro a b c hab hbc
    simp only [resultsLE, decide_eq_true_eq] at hab hbc ⊢
    omega
  have htotal : ∀ a b : ResultRow, resultsLE a b || resultsLE b a := by
    intro a b
    simp only [resultsLE, Bool.or_eq_true, decide_eq_true_eq]
    omega
  refine ⟨?_, List.mergeSort_perm _ _, ?_⟩
  · exact (List.sorted_mergeSort htrans htotal _).imp
      (fun h => by simpa [resultsLE] using h)
  · intro a b hsub hv
    exact List.pair_sublist_mergeSort htrans htotal
      (by simp [resultsLE, hv]) hsub

/-- Witness for C9: two candidates with tied tallies keep their insertion
order in the results. -/
theorem claim9_witness :
    List.Pairwise (fun a b : ResultRow => b.votes ≤ a.votes)
      (get_results_df dbPair) ∧
    List.Sublist [toResultRow candA, toResultRow candB]
      (get_results_df dbPair) :=
  ⟨(claim9_results_sorted_stable dbPair).1,
   (claim9_results_sorted_stable dbPair).2.2 (toResultRow candA)
     (toResultRow candB) (List.Sublist.refl _) rfl⟩

/-- C10: `vote_for_candidate` never consults the volunteer roster — for an
identifier absent from `volunteers` with no prior vote row for the pair,
the call still returns Accepted (`True`), inserts the vote row, and bumps
the named candidate's tally. -/
theorem claim10_no_volunteer_check (db : DB) (cid : Nat) (s p : Str)
    (hvol : ∀ v ∈ db.volunteers, v.student_id ≠ normId s)
    (hrow : hasVoteRow db.votes (normId s) p = false) :
    (vote_for_candidate db cid s p).1 = true ∧
    (vote_for_candidate db cid s p).2.votes = db.votes ++ [⟨normId s, p, cid⟩] ∧
    getTally (vote_for_candidate db cid s p).2.candidates cid
      = (getTally db.candidates cid).map (· + 1) := by
  refine ⟨vote_of_fresh_fst db cid s p hrow, ?_, ?_⟩
  · rw [vote_of_fresh_snd db cid s p hrow]
  · rw [vote_of_fresh_snd db cid s p hrow]
    show getTally (db.candidates.map (bumpCandidate cid)) cid
      = (getTally db.candidates cid).map (· + 1)
    exact getTally_bump_self db.candidates cid

/-- Witness for C10: `dbPair` has an empty roster, yet a vote by "a" is
accepted and candidate 1's tally rises. -/
theorem claim10_witness :
    (∀ v ∈ dbPair.volunteers, v.student_id ≠ normId [97]) ∧
    hasVoteRow dbPair.votes (normId [97]) [112] = false ∧
    ((vote_for_candidate dbPair 1 [97] [112]).1 = true ∧
     (vote_for_candidate dbPair 1 [97] [112]).2.votes
       = dbPair.votes ++ [⟨normId [97], [112], 1⟩] ∧
     getTally (vote_for_candidate dbPair 1 [97] [112]).2.candidates 1
       = (getTally dbPair.candidates 1).map (· + 1)) :=
  ⟨by decide, by decide,
   claim10_no_volunteer_check dbPair 1 [97] [112] (by decide) (by decide)⟩

end NSS
